import Mathlib

/-!
# better-blast: the D2 score and the D2 distance matrix of `bb.cpp`

A shallow embedding of the two functions of `src/src/bb.cpp` that carry the
algorithm, `d2CompareCounts` and `computeD2DistanceMatrix`, followed by the
properties that hold of them.

Conventions of the embedding.

* `String<unsigned>` is a `List Nat` whose entries are 32-bit counts; the
  product `value(it1) * value(it2)` is an `unsigned` product and is therefore
  reduced modulo `2 ^ 32`.
* `TValue` (the template parameter of the accumulator and of the matrix cells,
  `double` in `main`) is `Nat`: the accumulator only ever receives sums of
  naturals below `2 ^ 32`, which a `double` holds exactly as long as the sum
  stays below `2 ^ 53` (always the case for the 5-mer vectors of `main`).
* Collections hold fewer than `2 ^ 32` sequences, so `unsigned queryNumber`
  and `unsigned targetNumber` are the lengths themselves.
* An access outside a container (a read past `end(kmerCounts2)`, an assignment
  to a matrix cell outside the two lengths) has no behaviour defined by the
  source. It is recorded as the fault `Failure.OutOfRange`; the contents of the
  matrix mean something only for a run without fault.
-/

namespace BetterBlast

/-- The four error kinds named by the specification, and `OutOfRange`, which is
not an error kind of the specification: it marks an access outside a container. -/
inductive Failure where
  | InvalidKmerLength
  | AlphabetOverflow
  | VectorLengthMismatch
  | EmptyCollection
  | OutOfRange
  deriving DecidableEq, Repr

deriving instance DecidableEq for Except

/-- The score object `AFScore<D2>` (a SeqAn type, built in `main` as
`myScoreD2(kmerSize, verbose)`): the two fields that `bb.cpp` reads. -/
structure AFScore where
  kmerSize : Nat
  verbose : Bool
  deriving DecidableEq, Repr

/-- Number of values of the C++ type `unsigned`. -/
def unsignedRange : Nat := 4294967296

/-- The `unsigned` product `value(it1) * value(it2)`. -/
def unsignedMul (a b : Nat) : Nat := (a * b) % unsignedRange

/-- The loop of `d2CompareCounts`:
`for (; it1 < end(kmerCounts1); ++it1) { result += value(it1) * value(it2); ++it2; }`.
The first list is what `it1` still has to visit, the second what lies between
`it2` and `end(kmerCounts2)`. Reading `value(it2)` when nothing is left is an
access past the end of `kmerCounts2`. -/
def d2Loop (result : Nat) : List Nat → List Nat → Except Failure Nat
  | [], _ => Except.ok result
  | _ :: _, [] => Except.error Failure.OutOfRange
  | c1 :: it1, c2 :: it2 => d2Loop (result + unsignedMul c1 c2) it1 it2

/-- The function `d2CompareCounts(result, kmerCounts1, kmerCounts2, score)`:
`result = 0`, then the loop. The value returned is the final `result`; the
argument `score` is not read. -/
def d2CompareCounts (kmerCounts1 kmerCounts2 : List Nat) : Except Failure Nat :=
  d2Loop 0 kmerCounts1 kmerCounts2

/-- Modelled from the spec: `Matrix<TValue, 2>` is a SeqAn container whose
declaration is absent from the sources. It is the ScoreMatrix of section 3, a
2-D array of scores, reduced to what `computeD2DistanceMatrix` uses: the length
along dimension 0 (rows, `setLength(scoreMatrix, 0, queryNumber)`), the length
along dimension 1 (columns, `setLength(scoreMatrix, 1, targetNumber)`), and the
cells read and assigned through `value(scoreMatrix, i, j)`. -/
structure Matrix where
  length0 : Nat
  length1 : Nat
  host : Nat → Nat → Nat

/-- Reading `value(matrix, i, j)`. -/
def Matrix.value (m : Matrix) (i j : Nat) : Nat := m.host i j

/-- The assignment `value(matrix, i, j) = v` for a cell inside the lengths. -/
def Matrix.assignValue (m : Matrix) (i j v : Nat) : Matrix :=
  { m with host := fun a b => if a = i ∧ b = j then v else m.host a b }

/-- The cells of a matrix, row by row. -/
def Matrix.rows (m : Matrix) : List (List Nat) :=
  (List.range m.length0).map (fun i => (List.range m.length1).map (fun j => m.host i j))

/-- State of a run of `computeD2DistanceMatrix`: the matrix, every index pair
`(i, j)` for which `value(scoreMatrix, i, j)` has been assigned (in program
order), and the fault met, if any. -/
structure Run where
  scoreMatrix : Matrix
  assigned : List (Nat × Nat)
  fault : Option Failure

/-- One assignment `value(scoreMatrix, i, j) = v`. The index pair is recorded.
Inside the lengths the cell is updated; outside, the run is faulty. -/
def Run.assign (st : Run) (i j v : Nat) : Run :=
  if i < st.scoreMatrix.length0 ∧ j < st.scoreMatrix.length1 then
    { st with scoreMatrix := st.scoreMatrix.assignValue i j v,
              assigned := st.assigned ++ [(i, j)] }
  else
    { st with assigned := st.assigned ++ [(i, j)],
              fault := some Failure.OutOfRange }

/-- The loop `for (unsigned i = lo; i < hi; ++i) body`. -/
def forLoop {σ : Type} (lo hi : Nat) (body : Nat → σ → σ) (s : σ) : σ :=
  (List.range' lo (hi - lo)).foldl (fun st i => body i st) s

/-- Body of the inner loop of `computeD2DistanceMatrix`:
`d2CompareCounts(value(scoreMatrix, rowIndex, colIndex), qKmerCounts[rowIndex], tKmerCounts[colIndex], score);`
`value(scoreMatrix, colIndex, rowIndex) = value(scoreMatrix, rowIndex, colIndex);`
The call stores its result in the cell `(rowIndex, colIndex)`. When it reads
past the end of a count vector the run is faulty, and the cell is left at the
`0` of `result = 0`. -/
def scorePair (qKmerCounts tKmerCounts : List (List Nat)) (rowIndex colIndex : Nat)
    (st : Run) : Run :=
  let st1 : Run :=
    match d2CompareCounts (qKmerCounts.getD rowIndex []) (tKmerCounts.getD colIndex []) with
    | Except.ok result => st.assign rowIndex colIndex result
    | Except.error e => { st.assign rowIndex colIndex 0 with fault := some e }
  st1.assign colIndex rowIndex (st1.scoreMatrix.value rowIndex colIndex)

/-- The two counting loops of `computeD2DistanceMatrix`: one call of
`countKmers` per sequence, in collection order. -/
def countKmerSet {σ : Type} (countKmers : σ → Nat → List Nat) (seqSet : List σ)
    (kmerSize : Nat) : List (List Nat) :=
  seqSet.map (fun s => countKmers s kmerSize)

/-- The function `computeD2DistanceMatrix(scoreMatrix, querySet, targetSet, score)`.
`countKmers` is the SeqAn library function that the source calls; it is a
parameter here (the vector it leaves in its first argument, from the sequence
and `k`). The matrix starts with lengths `queryNumber` and `targetNumber` and
every cell `0` (`resize(scoreMatrix, (TValue) 0)` on the empty matrix of
`main`). The line printed when `score.verbose` is set is output only and is
left out. -/
def computeD2DistanceMatrix {σ : Type} (countKmers : σ → Nat → List Nat)
    (querySet targetSet : List σ) (score : AFScore) : Run :=
  let queryNumber := querySet.length
  let targetNumber := targetSet.length
  let qKmerCounts := countKmerSet countKmers querySet score.kmerSize
  let tKmerCounts := countKmerSet countKmers targetSet score.kmerSize
  let scoreMatrix : Matrix := { length0 := queryNumber, length1 := targetNumber, host := fun _ _ => 0 }
  forLoop 0 queryNumber
    (fun rowIndex st =>
      forLoop rowIndex targetNumber
        (fun colIndex st1 => scorePair qKmerCounts tKmerCounts rowIndex colIndex st1) st)
    { scoreMatrix := scoreMatrix, assigned := [], fault := none }

/-- The exact dot product of two count vectors, as the specification words the
D2 score: the sum over every index of the product of the two counts. -/
def dotProduct (a b : List Nat) : Nat := (List.zipWith (fun x y => x * y) a b).sum

/-- Symbols of a `Dna5String`: the four nucleotides and the ambiguity symbol `N`. -/
inductive Dna5 where
  | A
  | C
  | G
  | T
  | N
  deriving DecidableEq, Repr

/-- The two ambiguity policies of the specification (section 4.1). -/
inductive AmbiguityPolicy where
  | extendAlphabet
  | skipWindow
  deriving DecidableEq, Repr

/-- Alphabet size under a policy: the ambiguity symbol is a fifth rank when the
alphabet is extended. -/
def alphabetSize : AmbiguityPolicy → Nat
  | AmbiguityPolicy.extendAlphabet => 5
  | AmbiguityPolicy.skipWindow => 4

/-- Rank of a symbol; `none` for the ambiguity symbol under the skip policy. -/
def symbolRank : AmbiguityPolicy → Dna5 → Option Nat
  | _, Dna5.A => some 0
  | _, Dna5.C => some 1
  | _, Dna5.G => some 2
  | _, Dna5.T => some 3
  | AmbiguityPolicy.extendAlphabet, Dna5.N => some 4
  | AmbiguityPolicy.skipWindow, Dna5.N => none

/-- Positional encoding of a window: each symbol contributes
`symbol_rank * alphabet_size ^ position`; `none` when a symbol has no rank. -/
def windowIndex (policy : AmbiguityPolicy) : List Dna5 → Option Nat
  | [] => some 0
  | c :: w =>
    match symbolRank policy c, windowIndex policy w with
    | some r, some i => some (r + alphabetSize policy * i)
    | _, _ => none

/-- Increment of one slot of a frequency vector. -/
def incrementSlot : List Nat → Nat → List Nat
  | [], _ => []
  | c :: v, 0 => (c + 1) :: v
  | c :: v, i + 1 => c :: incrementSlot v i

/-- Modelled from the spec: the counting algorithm of `countKmers`, absent from
the sources. It is the sliding window of section 4.1: one window per starting
position from the first to the last valid one (`length - k + 1` windows, none
when the sequence is shorter than `k`); the slot of each window is incremented,
and a window with an unranked symbol is skipped. -/
def countWindows (policy : AmbiguityPolicy) (sequence : List Dna5) (k : Nat) : List Nat :=
  forLoop 0 (sequence.length + 1 - k)
    (fun start v =>
      match windowIndex policy ((sequence.drop start).take k) with
      | some i => incrementSlot v i
      | none => v)
    (List.replicate (alphabetSize policy ^ k) 0)

/-- Modelled from the spec: `countKmers` is a function of the SeqAn library
(`seqan/alignment_free/kmer_functions.h`), which `bb.cpp` calls and which is
absent from the sources. This is the operation
`countKmers(sequence, k, alphabetPolicy)` of sections 4.1 and 6, with the
configured maximum vector length as a parameter: `InvalidKmerLength` when
`k < 1`, `AlphabetOverflow` when `alphabet_size ^ k` exceeds the maximum, the
vector of window counts otherwise. -/
def countKmers (maxVectorLength : Nat) (sequence : List Dna5) (k : Nat)
    (alphabetPolicy : AmbiguityPolicy) : Except Failure (List Nat) :=
  if k < 1 then Except.error Failure.InvalidKmerLength
  else if maxVectorLength < alphabetSize alphabetPolicy ^ k then
    Except.error Failure.AlphabetOverflow
  else Except.ok (countWindows alphabetPolicy sequence k)

/-- Modelled from the spec: the counting function handed to
`computeD2DistanceMatrix` for the `Dna5String` collections of `main`, in place
of the absent SeqAn `countKmers`: the window counts under the skip policy. -/
def countKmersDna5 (sequence : List Dna5) (k : Nat) : List Nat :=
  countWindows AmbiguityPolicy.skipWindow sequence k

/-! ## Loop invariants -/

/-- The index pairs assigned once every iteration before `(row, col)` has run. -/
def AssignedUpTo (t row col : Nat) (l : List (Nat × Nat)) : Prop :=
  ∀ p : Nat × Nat, p ∈ l ↔
    (min p.1 p.2 < row ∨ (min p.1 p.2 = row ∧ max p.1 p.2 < col)) ∧ max p.1 p.2 < t

/-- The state once every iteration before `(row, col)` has run, when every
iteration is inside the lengths and `f row col` is the score of the pair. -/
def ScoredUpTo (f : Nat → Nat → Nat) (q t row col : Nat) (st : Run) : Prop :=
  st.scoreMatrix.length0 = q ∧ st.scoreMatrix.length1 = t ∧ st.fault = none ∧
  ∀ a b, st.scoreMatrix.host a b =
    if (min a b < row ∨ (min a b = row ∧ max a b < col)) ∧ max a b < t
    then f (min a b) (max a b) else 0

/-! ## Checks on concrete inputs -/

theorem d2CompareCounts_example : d2CompareCounts [1, 2, 3] [4, 5, 6] = Except.ok 32 := by decide
theorem d2CompareCounts_shorter_first : d2CompareCounts [1] [1, 2] = Except.ok 1 := by decide
theorem d2CompareCounts_longer_first : d2CompareCounts [1, 2] [1] = Except.error Failure.OutOfRange := by decide
theorem d2CompareCounts_wrap_example : d2CompareCounts [65536] [65536] = Except.ok 0 := by decide
theorem computeD2DistanceMatrix_example_rows : (computeD2DistanceMatrix (fun (s : List Nat) _ => s) [[1, 0], [0, 1]] [[1, 0], [1, 0]]
    ⟨1, false⟩).scoreMatrix.rows = [[1, 1], [1, 0]] := by decide
theorem computeD2DistanceMatrix_example_assigned : (computeD2DistanceMatrix (fun (s : List Nat) _ => s) [[1, 0]] [[1, 0], [1, 0]]
    ⟨1, false⟩).assigned = [(0, 0), (0, 0), (0, 1), (1, 0)] := by decide
theorem countKmers_ACGT : countKmers 1024 [Dna5.A, Dna5.C, Dna5.G, Dna5.T] 2 AmbiguityPolicy.skipWindow
    = Except.ok [0, 0, 0, 0, 1, 0, 0, 0, 0, 1, 0, 0, 0, 0, 1, 0] := by decide
theorem scenario_ACGT_self : (computeD2DistanceMatrix countKmersDna5 [[Dna5.A, Dna5.C, Dna5.G, Dna5.T]]
    [[Dna5.A, Dna5.C, Dna5.G, Dna5.T]] ⟨2, false⟩).scoreMatrix.rows = [[3]] := by decide
theorem scenario_AAAA_self : (computeD2DistanceMatrix countKmersDna5 [[Dna5.A, Dna5.A, Dna5.A, Dna5.A]]
    [[Dna5.A, Dna5.A, Dna5.A, Dna5.A]] ⟨1, false⟩).scoreMatrix.rows = [[16]] := by decide
theorem scenario_AC_GT : (computeD2DistanceMatrix countKmersDna5 [[Dna5.A, Dna5.C]]
    [[Dna5.G, Dna5.T]] ⟨2, false⟩).scoreMatrix.rows = [[0]] := by decide
theorem countKmers_k_zero : countKmers 1024 [Dna5.A] 0 AmbiguityPolicy.skipWindow
    = Except.error Failure.InvalidKmerLength := by decide

/-! ## The D2 score -/

theorem d2Loop_of_le (a : List Nat) : ∀ (b : List Nat) (result : Nat), a.length ≤ b.length →
    d2Loop result a b = Except.ok (result + (List.zipWith unsignedMul a b).sum) := by
  induction a with
  | nil => intro b result _; simp [d2Loop]
  | cons c1 it1 ih =>
    intro b result h
    cases b with
    | nil => simp at h
    | cons c2 it2 =>
      have h1 : it1.length ≤ it2.length := by simpa using h
      simp [d2Loop, ih it2 _ h1, Nat.add_assoc]

theorem d2Loop_of_lt (a : List Nat) : ∀ (b : List Nat) (result : Nat), b.length < a.length →
    d2Loop result a b = Except.error Failure.OutOfRange := by
  induction a with
  | nil => intro b result h; simp at h
  | cons c1 it1 ih =>
    intro b result h
    cases b with
    | nil => simp [d2Loop]
    | cons c2 it2 =>
      have h1 : it2.length < it1.length := by simpa using h
      simp [d2Loop, ih it2 _ h1]

theorem d2CompareCounts_of_le (a b : List Nat) (h : a.length ≤ b.length) :
    d2CompareCounts a b = Except.ok (List.zipWith unsignedMul a b).sum := by
  simp [d2CompareCounts, d2Loop_of_le a b 0 h]

theorem zipWith_unsignedMul_comm (a : List Nat) : ∀ b : List Nat,
    List.zipWith unsignedMul a b = List.zipWith unsignedMul b a := by
  induction a with
  | nil => intro b; cases b <;> simp
  | cons x a ih =>
    intro b
    cases b with
    | nil => simp
    | cons y b => simp [ih b, unsignedMul, Nat.mul_comm]

theorem zipWith_unsignedMul_take (a : List Nat) : ∀ b : List Nat,
    List.zipWith unsignedMul a (b.take a.length) = List.zipWith unsignedMul a b := by
  induction a with
  | nil => intro b; simp
  | cons x a ih =>
    intro b
    cases b with
    | nil => simp
    | cons y b => simp [ih b]

theorem zipWith_unsignedMul_exact (a : List Nat) : ∀ b : List Nat,
    (∀ p ∈ List.zip a b, p.1 * p.2 < unsignedRange) →
    (List.zipWith unsignedMul a b).sum = dotProduct a b := by
  induction a with
  | nil => intro b _; simp [dotProduct]
  | cons x a ih =>
    intro b h
    cases b with
    | nil => simp [dotProduct]
    | cons y b =>
      have hxy : x * y < unsignedRange := h (x, y) (by simp)
      have hrest : ∀ p ∈ List.zip a b, p.1 * p.2 < unsignedRange :=
        fun p hp => h p (by simp [hp])
      have := ih b hrest
      simp only [dotProduct] at this
      simp [dotProduct, unsignedMul, Nat.mod_eq_of_lt hxy, this]

theorem d2CompareCounts_exact (a b : List Nat) (h : a.length ≤ b.length)
    (hsmall : ∀ p ∈ List.zip a b, p.1 * p.2 < unsignedRange) :
    d2CompareCounts a b = Except.ok (dotProduct a b) := by
  rw [d2CompareCounts_of_le a b h, zipWith_unsignedMul_exact a b hsmall]

/-! ## Loops -/

theorem forLoop_of_ge {σ : Type} (lo hi : Nat) (body : Nat → σ → σ) (s : σ) (h : hi ≤ lo) :
    forLoop lo hi body s = s := by
  have h0 : hi - lo = 0 := by omega
  simp [forLoop, h0]

theorem foldl_range'_invariant {σ : Type} (P : Nat → σ → Prop) (body : Nat → σ → σ) :
    ∀ (n lo : Nat) (s : σ), P lo s →
      (∀ i st, lo ≤ i → i < lo + n → P i st → P (i + 1) (body i st)) →
      P (lo + n) ((List.range' lo n).foldl (fun st i => body i st) s) := by
  intro n
  induction n with
  | zero => intro lo s h0 _; simpa using h0
  | succ n ih =>
    intro lo s h0 hstep
    rw [List.range'_succ, List.foldl_cons]
    have h1 : P (lo + 1) (body lo s) := hstep lo s (Nat.le_refl lo) (by omega) h0
    have h2 := ih (lo + 1) (body lo s) h1
      (fun i st hlo hhi hP => hstep i st (by omega) (by omega) hP)
    have e : lo + 1 + n = lo + (n + 1) := by omega
    rw [e] at h2
    exact h2

/-- Invariant rule of the `for` loop: what holds before the first iteration and
is carried by every iteration holds after the last one. -/
theorem forLoop_invariant {σ : Type} (P : Nat → σ → Prop) (body : Nat → σ → σ)
    (lo hi : Nat) (s : σ) (hle : lo ≤ hi) (h0 : P lo s)
    (hstep : ∀ i st, lo ≤ i → i < hi → P i st → P (i + 1) (body i st)) :
    P hi (forLoop lo hi body s) := by
  have h := foldl_range'_invariant P body (hi - lo) lo s h0
    (fun i st hlo hhi hP => hstep i st hlo (by omega) hP)
  have e : lo + (hi - lo) = hi := by omega
  rw [e] at h
  exact h

/-! ## One iteration of the inner loop -/

theorem assign_lengths (st : Run) (i j v : Nat) :
    (st.assign i j v).scoreMatrix.length0 = st.scoreMatrix.length0 ∧
    (st.assign i j v).scoreMatrix.length1 = st.scoreMatrix.length1 := by
  unfold Run.assign
  split <;> simp [Matrix.assignValue]

theorem assign_assigned (st : Run) (i j v : Nat) :
    (st.assign i j v).assigned = st.assigned ++ [(i, j)] := by
  unfold Run.assign
  split <;> rfl

theorem assign_inside (st : Run) (i j v : Nat) (hi : i < st.scoreMatrix.length0)
    (hj : j < st.scoreMatrix.length1) :
    (st.assign i j v).fault = st.fault ∧
    ∀ a b, (st.assign i j v).scoreMatrix.host a b
      = if a = i ∧ b = j then v else st.scoreMatrix.host a b := by
  unfold Run.assign
  rw [if_pos ⟨hi, hj⟩]
  simp [Matrix.assignValue]

theorem scorePair_lengths (qv tv : List (List Nat)) (row col : Nat) (st : Run) :
    (scorePair qv tv row col st).scoreMatrix.length0 = st.scoreMatrix.length0 ∧
    (scorePair qv tv row col st).scoreMatrix.length1 = st.scoreMatrix.length1 := by
  unfold scorePair
  cases d2CompareCounts (qv.getD row []) (tv.getD col []) with
  | ok r =>
    have h1 := assign_lengths st row col r
    have h2 := assign_lengths (st.assign row col r) col row
      ((st.assign row col r).scoreMatrix.value row col)
    exact ⟨h2.1.trans h1.1, h2.2.trans h1.2⟩
  | error e =>
    have h1 := assign_lengths st row col 0
    have h2 := assign_lengths { st.assign row col 0 with fault := some e } col row
      (({ st.assign row col 0 with fault := some e } : Run).scoreMatrix.value row col)
    exact ⟨h2.1.trans h1.1, h2.2.trans h1.2⟩

theorem scorePair_assigned (qv tv : List (List Nat)) (row col : Nat) (st : Run) :
    (scorePair qv tv row col st).assigned = st.assigned ++ [(row, col), (col, row)] := by
  unfold scorePair
  cases d2CompareCounts (qv.getD row []) (tv.getD col []) with
  | ok r => simp [assign_assigned]
  | error e => simp [assign_assigned]

/-- One iteration inside the lengths whose score is `r`: no fault is added and
the two cells `(row, col)` and `(col, row)` hold `r`. -/
theorem scorePair_inside (qv tv : List (List Nat)) (row col r : Nat) (st : Run)
    (hd2 : d2CompareCounts (qv.getD row []) (tv.getD col []) = Except.ok r)
    (hrow0 : row < st.scoreMatrix.length0) (hcol1 : col < st.scoreMatrix.length1)
    (hcol0 : col < st.scoreMatrix.length0) (hrow1 : row < st.scoreMatrix.length1) :
    (scorePair qv tv row col st).fault = st.fault ∧
    ∀ a b, (scorePair qv tv row col st).scoreMatrix.host a b
      = if (a = row ∧ b = col) ∨ (a = col ∧ b = row) then r else st.scoreMatrix.host a b := by
  unfold scorePair
  rw [hd2]
  have h1 := assign_inside st row col r hrow0 hcol1
  have hl := assign_lengths st row col r
  have h2 := assign_inside (st.assign row col r) col row
    ((st.assign row col r).scoreMatrix.value row col)
    (by rw [hl.1]; exact hcol0) (by rw [hl.2]; exact hrow1)
  refine ⟨h2.1.trans h1.1, ?_⟩
  intro a b
  have hv : (st.assign row col r).scoreMatrix.value row col = r := by
    simp [Matrix.value, h1.2 row col]
  show ((st.assign row col r).assign col row
    ((st.assign row col r).scoreMatrix.value row col)).scoreMatrix.host a b = _
  rw [h2.2 a b, h1.2 a b, hv]
  by_cases hA : a = col ∧ b = row
  · simp [hA]
  · by_cases hB : a = row ∧ b = col
    · simp [hB]
    · simp [hA, hB]

/-! ## The two nested loops -/

theorem forLoop_preserves {σ : Type} (P : σ → Prop) (body : Nat → σ → σ) (lo hi : Nat) (s : σ)
    (h0 : P s) (hstep : ∀ i st, lo ≤ i → i < hi → P st → P (body i st)) :
    P (forLoop lo hi body s) := by
  by_cases h : lo ≤ hi
  · exact forLoop_invariant (fun _ st => P st) body lo hi s h h0 hstep
  · rw [forLoop_of_ge lo hi body s (by omega)]
    exact h0

/-- The nested loops of `computeD2DistanceMatrix`, from a given state. -/
theorem scoreLoops_lengths (qv tv : List (List Nat)) (q t : Nat) (s : Run) :
    (forLoop 0 q (fun rowIndex st => forLoop rowIndex t
      (fun colIndex st1 => scorePair qv tv rowIndex colIndex st1) st) s).scoreMatrix.length0
        = s.scoreMatrix.length0 ∧
    (forLoop 0 q (fun rowIndex st => forLoop rowIndex t
      (fun colIndex st1 => scorePair qv tv rowIndex colIndex st1) st) s).scoreMatrix.length1
        = s.scoreMatrix.length1 := by
  refine forLoop_preserves
    (fun st : Run => st.scoreMatrix.length0 = s.scoreMatrix.length0 ∧
      st.scoreMatrix.length1 = s.scoreMatrix.length1) _ 0 q s ⟨rfl, rfl⟩ ?_
  · intro row st _ _ hst
    refine forLoop_preserves
      (fun st1 : Run => st1.scoreMatrix.length0 = s.scoreMatrix.length0 ∧
        st1.scoreMatrix.length1 = s.scoreMatrix.length1) _ row t st hst ?_
    · intro col st1 _ _ hst1
      have h := scorePair_lengths qv tv row col st1
      exact ⟨h.1.trans hst1.1, h.2.trans hst1.2⟩

theorem scorePair_assignedUpTo (qv tv : List (List Nat)) (t row col : Nat) (st : Run)
    (hrc : row ≤ col) (hct : col < t) (h : AssignedUpTo t row col st.assigned) :
    AssignedUpTo t row (col + 1) (scorePair qv tv row col st).assigned := by
  intro p
  rw [scorePair_assigned, List.mem_append, h p]
  obtain ⟨a, b⟩ := p
  simp only [List.mem_cons, List.mem_singleton, Prod.mk.injEq, List.mem_nil_iff, or_false,
    List.not_mem_nil]
  omega

theorem scoreLoops_assigned (qv tv : List (List Nat)) (q t : Nat) (s : Run)
    (hs : s.assigned = []) :
    ∀ p : Nat × Nat, p ∈ (forLoop 0 q (fun rowIndex st => forLoop rowIndex t
      (fun colIndex st1 => scorePair qv tv rowIndex colIndex st1) st) s).assigned ↔
      min p.1 p.2 < q ∧ max p.1 p.2 < t := by
  have key : AssignedUpTo t q q (forLoop 0 q (fun rowIndex st => forLoop rowIndex t
      (fun colIndex st1 => scorePair qv tv rowIndex colIndex st1) st) s).assigned := by
    refine forLoop_invariant (fun row (st : Run) => AssignedUpTo t row row st.assigned)
      _ 0 q s (Nat.zero_le q) ?_ ?_
    · intro p
      rw [hs]
      simp only [List.not_mem_nil, false_iff]
      omega
    · intro row st _ _ hst
      by_cases hrt : row ≤ t
      · have h := forLoop_invariant (fun col (st1 : Run) => AssignedUpTo t row col st1.assigned)
          (fun colIndex st1 => scorePair qv tv row colIndex st1) row t st hrt hst
          (fun col st1 hlo hhi h1 => scorePair_assignedUpTo qv tv t row col st1 hlo hhi h1)
        intro p
        rw [h p]
        omega
      · rw [forLoop_of_ge row t _ st (by omega)]
        intro p
        rw [hst p]
        omega
  intro p
  rw [key p]
  omega

theorem scorePair_scoredUpTo (qv tv : List (List Nat)) (f : Nat → Nat → Nat)
    (q t row col : Nat) (st : Run) (htq : t ≤ q) (hrc : row ≤ col) (hct : col < t)
    (hd2 : d2CompareCounts (qv.getD row []) (tv.getD col []) = Except.ok (f row col))
    (h : ScoredUpTo f q t row col st) :
    ScoredUpTo f q t row (col + 1) (scorePair qv tv row col st) := by
  obtain ⟨h0, h1, hf, hh⟩ := h
  have hl := scorePair_lengths qv tv row col st
  have hi := scorePair_inside qv tv row col (f row col) st hd2
    (by omega) (by omega) (by omega) (by omega)
  refine ⟨hl.1.trans h0, hl.2.trans h1, hi.1.trans hf, ?_⟩
  intro a b
  rw [hi.2 a b]
  by_cases hE : (a = row ∧ b = col) ∨ (a = col ∧ b = row)
  · have hmin : min a b = row := by omega
    have hmax : max a b = col := by omega
    rw [if_pos hE, if_pos (by omega), hmin, hmax]
  · rw [if_neg hE, hh a b]
    by_cases hC : (min a b < row ∨ (min a b = row ∧ max a b < col)) ∧ max a b < t
    · rw [if_pos hC, if_pos (by omega)]
    · rw [if_neg hC, if_neg (by omega)]

theorem scoreLoops_scored (qv tv : List (List Nat)) (f : Nat → Nat → Nat) (q t : Nat) (s : Run)
    (htq : t ≤ q)
    (hd2 : ∀ row col, row < q → col < t →
      d2CompareCounts (qv.getD row []) (tv.getD col []) = Except.ok (f row col))
    (hs : ScoredUpTo f q t 0 0 s) :
    ScoredUpTo f q t q q (forLoop 0 q (fun rowIndex st => forLoop rowIndex t
      (fun colIndex st1 => scorePair qv tv rowIndex colIndex st1) st) s) := by
  refine forLoop_invariant (fun row (st : Run) => ScoredUpTo f q t row row st)
    _ 0 q s (Nat.zero_le q) hs ?_
  · intro row st _ hrq hst
    by_cases hrt : row ≤ t
    · have h := forLoop_invariant (fun col (st1 : Run) => ScoredUpTo f q t row col st1)
        (fun colIndex st1 => scorePair qv tv row colIndex st1) row t st hrt hst
        (fun col st1 hlo hhi h1 => scorePair_scoredUpTo qv tv f q t row col st1 htq hlo hhi
          (hd2 row col hrq hhi) h1)
      obtain ⟨h0, h1, hf, hh⟩ := h
      refine ⟨h0, h1, hf, ?_⟩
      intro a b
      rw [hh a b]
      by_cases hC : (min a b < row ∨ (min a b = row ∧ max a b < t)) ∧ max a b < t
      · rw [if_pos hC, if_pos (by omega)]
      · rw [if_neg hC, if_neg (by omega)]
    · rw [forLoop_of_ge row t _ st (by omega)]
      obtain ⟨h0, h1, hf, hh⟩ := hst
      refine ⟨h0, h1, hf, ?_⟩
      intro a b
      rw [hh a b]
      by_cases hC : (min a b < row ∨ (min a b = row ∧ max a b < row)) ∧ max a b < t
      · rw [if_pos hC, if_pos (by omega)]
      · rw [if_neg hC, if_neg (by omega)]

/-! ## The distance matrix -/

theorem countKmerSet_getD {σ : Type} (countKmers : σ → Nat → List Nat) (seqSet : List σ)
    (kmerSize i : Nat) (hi : i < seqSet.length) :
    (countKmerSet countKmers seqSet kmerSize).getD i [] = countKmers seqSet[i] kmerSize := by
  have h : i < (countKmerSet countKmers seqSet kmerSize).length := by
    simpa [countKmerSet] using hi
  rw [List.getD_eq_getElem _ _ h]
  simp [countKmerSet]

/-- The score that the run stores for the pair `(row, col)`. -/
theorem d2CompareCounts_countKmerSet {σ : Type} (countKmers : σ → Nat → List Nat)
    (querySet targetSet : List σ) (kmerSize vectorLength : Nat)
    (hq : ∀ s ∈ querySet, (countKmers s kmerSize).length = vectorLength)
    (ht : ∀ s ∈ targetSet, (countKmers s kmerSize).length = vectorLength)
    (row col : Nat) (hrow : row < querySet.length) (hcol : col < targetSet.length) :
    d2CompareCounts ((countKmerSet countKmers querySet kmerSize).getD row [])
      ((countKmerSet countKmers targetSet kmerSize).getD col [])
    = Except.ok (List.zipWith unsignedMul
        ((countKmerSet countKmers querySet kmerSize).getD row [])
        ((countKmerSet countKmers targetSet kmerSize).getD col [])).sum := by
  apply d2CompareCounts_of_le
  rw [countKmerSet_getD countKmers querySet kmerSize row hrow,
    countKmerSet_getD countKmers targetSet kmerSize col hcol,
    hq _ (List.getElem_mem hrow), ht _ (List.getElem_mem hcol)]

theorem computeD2DistanceMatrix_assigned_iff {σ : Type} (countKmers : σ → Nat → List Nat)
    (querySet targetSet : List σ) (score : AFScore) (p : Nat × Nat) :
    p ∈ (computeD2DistanceMatrix countKmers querySet targetSet score).assigned ↔
      min p.1 p.2 < querySet.length ∧ max p.1 p.2 < targetSet.length := by
  unfold computeD2DistanceMatrix
  exact scoreLoops_assigned _ _ _ _ _ rfl p

/-- With no more targets than queries and `f row col` the score of every pair
inside the lengths, the run has no fault, and the cell `(a, b)` holds the score
of the pair `(min a b, max a b)` when both indices are below the number of
targets, `0` otherwise. -/
theorem computeD2DistanceMatrix_scored_of {σ : Type} (countKmers : σ → Nat → List Nat)
    (querySet targetSet : List σ) (score : AFScore) (f : Nat → Nat → Nat)
    (htq : targetSet.length ≤ querySet.length)
    (hd2 : ∀ row col, row < querySet.length → col < targetSet.length →
      d2CompareCounts ((countKmerSet countKmers querySet score.kmerSize).getD row [])
        ((countKmerSet countKmers targetSet score.kmerSize).getD col [])
      = Except.ok (f row col)) :
    (computeD2DistanceMatrix countKmers querySet targetSet score).fault = none ∧
    ∀ a b, (computeD2DistanceMatrix countKmers querySet targetSet score).scoreMatrix.host a b =
      if max a b < targetSet.length then f (min a b) (max a b) else 0 := by
  have h := scoreLoops_scored (countKmerSet countKmers querySet score.kmerSize)
    (countKmerSet countKmers targetSet score.kmerSize) f
    querySet.length targetSet.length
    { scoreMatrix := { length0 := querySet.length, length1 := targetSet.length,
                       host := fun _ _ => 0 },
      assigned := [], fault := none }
    htq hd2
    ⟨rfl, rfl, rfl, fun a b => by
      rw [if_neg]
      omega⟩
  obtain ⟨_, _, hf, hh⟩ := h
  refine ⟨hf, ?_⟩
  intro a b
  have hab := hh a b
  unfold computeD2DistanceMatrix
  rw [hab]
  by_cases hC : max a b < targetSet.length
  · rw [if_pos hC, if_pos (by omega)]
  · rw [if_neg hC, if_neg (by omega)]

/-- The same with count vectors of one length: the scores are those of
`d2CompareCounts` on the count vectors. -/
theorem computeD2DistanceMatrix_scored {σ : Type} (countKmers : σ → Nat → List Nat)
    (querySet targetSet : List σ) (score : AFScore) (vectorLength : Nat)
    (htq : targetSet.length ≤ querySet.length)
    (hq : ∀ s ∈ querySet, (countKmers s score.kmerSize).length = vectorLength)
    (ht : ∀ s ∈ targetSet, (countKmers s score.kmerSize).length = vectorLength) :
    (computeD2DistanceMatrix countKmers querySet targetSet score).fault = none ∧
    ∀ a b, (computeD2DistanceMatrix countKmers querySet targetSet score).scoreMatrix.host a b =
      if max a b < targetSet.length then
        (List.zipWith unsignedMul
          ((countKmerSet countKmers querySet score.kmerSize).getD (min a b) [])
          ((countKmerSet countKmers targetSet score.kmerSize).getD (max a b) [])).sum
      else 0 :=
  computeD2DistanceMatrix_scored_of countKmers querySet targetSet score
    (fun row col => (List.zipWith unsignedMul
      ((countKmerSet countKmers querySet score.kmerSize).getD row [])
      ((countKmerSet countKmers targetSet score.kmerSize).getD col [])).sum)
    htq
    (fun row col hrow hcol => d2CompareCounts_countKmerSet countKmers querySet targetSet
      score.kmerSize vectorLength hq ht row col hrow hcol)

/-! ## Properties of `d2CompareCounts` -/

set_option maxRecDepth 100000

/-- C1, evaluated where it fails: for the 5-mer count vector of a sequence of
65540 `A` (1024 slots, `65536` in the slot of `AAAAA`, `0` elsewhere) scored
against itself, the product `65536 * 65536` is taken in `unsigned` arithmetic
and wraps to `0`, so `d2CompareCounts` returns `0` while the exact dot product
of the two vectors is `4294967296`. -/
theorem d2CompareCounts_product_wraps :
    d2CompareCounts (65536 :: List.replicate 1023 0) (65536 :: List.replicate 1023 0)
      = Except.ok 0 ∧
    dotProduct (65536 :: List.replicate 1023 0) (65536 :: List.replicate 1023 0)
      = 4294967296 := by
  decide

/-- C5: `d2CompareCounts` is commutative on count vectors of equal length. -/
theorem d2CompareCounts_comm (a b : List Nat) (h : a.length = b.length) :
    d2CompareCounts a b = d2CompareCounts b a := by
  rw [d2CompareCounts_of_le a b (Nat.le_of_eq h),
    d2CompareCounts_of_le b a (Nat.le_of_eq h.symm), zipWith_unsignedMul_comm a b]

theorem d2CompareCounts_comm_witness :
    [65536, 3, 0, 7].length = [65537, 5, 9, 2].length ∧
    d2CompareCounts [65536, 3, 0, 7] [65537, 5, 9, 2]
      = d2CompareCounts [65537, 5, 9, 2] [65536, 3, 0, 7] :=
  ⟨by decide, d2CompareCounts_comm [65536, 3, 0, 7] [65537, 5, 9, 2] (by decide)⟩

/-- C6 fails as stated: the vectors `[1]` and `[1, 2]` have different lengths,
and `d2CompareCounts` returns the score `1` for them instead of failing with
`VectorLengthMismatch`. -/
theorem d2CompareCounts_unequal_lengths_score :
    [1].length ≠ [1, 2].length ∧
    d2CompareCounts [1] [1, 2] = Except.ok 1 ∧
    d2CompareCounts [1] [1, 2] ≠ Except.error Failure.VectorLengthMismatch := by
  decide

/-- C6, amended: `d2CompareCounts` has no length check. It never fails with
`VectorLengthMismatch`, and whenever `kmerCounts1` is not longer than
`kmerCounts2` (equal lengths included) it returns a score, which is the score
of `kmerCounts1` against the first `|kmerCounts1|` entries of `kmerCounts2`. -/
theorem d2CompareCounts_no_length_check (a b : List Nat) :
    d2CompareCounts a b ≠ Except.error Failure.VectorLengthMismatch ∧
    (a.length ≤ b.length →
      ∃ r, d2CompareCounts a b = Except.ok r ∧
        d2CompareCounts a (b.take a.length) = Except.ok r) := by
  constructor
  · by_cases h : a.length ≤ b.length
    · rw [d2CompareCounts_of_le a b h]
      exact fun hne => by cases hne
    · have hlt : b.length < a.length := by omega
      have he : d2CompareCounts a b = Except.error Failure.OutOfRange := by
        simp [d2CompareCounts, d2Loop_of_lt a b 0 hlt]
      rw [he]
      exact fun hne => by cases hne
  · intro h
    refine ⟨(List.zipWith unsignedMul a b).sum, d2CompareCounts_of_le a b h, ?_⟩
    have ht : a.length ≤ (b.take a.length).length := by
      rw [List.length_take]
      omega
    rw [d2CompareCounts_of_le a (b.take a.length) ht, zipWith_unsignedMul_take a b]

theorem d2CompareCounts_no_length_check_witness :
    [2, 3].length ≤ [5, 7, 11].length ∧
    ∃ r, d2CompareCounts [2, 3] [5, 7, 11] = Except.ok r ∧
      d2CompareCounts [2, 3] ([5, 7, 11].take [2, 3].length) = Except.ok r :=
  ⟨by decide, (d2CompareCounts_no_length_check [2, 3] [5, 7, 11]).2 (by decide)⟩

/-! ## Properties of `computeD2DistanceMatrix` -/

/-- C2, evaluated where it fails: with `k = 1`, queries `AA`, `CC` and targets
`AC`, `AA`, the matrix is `[[2, 4], [4, 0]]`: the cell `(1, 0)` holds `4`, the
score of query 0 against target 1 copied there by the mirrored write, while
the score of query 1 against target 0 is `2`. The run has no fault. -/
theorem computeD2DistanceMatrix_mirrors_distinct_sets :
    (computeD2DistanceMatrix countKmersDna5 [[Dna5.A, Dna5.A], [Dna5.C, Dna5.C]]
      [[Dna5.A, Dna5.C], [Dna5.A, Dna5.A]] ⟨1, false⟩).scoreMatrix.rows = [[2, 4], [4, 0]] ∧
    (computeD2DistanceMatrix countKmersDna5 [[Dna5.A, Dna5.A], [Dna5.C, Dna5.C]]
      [[Dna5.A, Dna5.C], [Dna5.A, Dna5.A]] ⟨1, false⟩).fault = none ∧
    d2CompareCounts (countKmersDna5 [Dna5.C, Dna5.C] 1) (countKmersDna5 [Dna5.A, Dna5.C] 1)
      = Except.ok 2 := by
  decide

/-- C4: the matrix of `computeD2DistanceMatrix` has `|query|` rows and
`|target|` columns for every pair of collections, whatever cells the loops
assign. -/
theorem computeD2DistanceMatrix_dimensions {σ : Type} (countKmers : σ → Nat → List Nat)
    (querySet targetSet : List σ) (score : AFScore) :
    (computeD2DistanceMatrix countKmers querySet targetSet score).scoreMatrix.length0
      = querySet.length ∧
    (computeD2DistanceMatrix countKmers querySet targetSet score).scoreMatrix.length1
      = targetSet.length ∧
    (computeD2DistanceMatrix countKmers querySet targetSet score).scoreMatrix.rows.length
      = querySet.length ∧
    ∀ r ∈ (computeD2DistanceMatrix countKmers querySet targetSet score).scoreMatrix.rows,
      r.length = targetSet.length := by
  have h : (computeD2DistanceMatrix countKmers querySet targetSet score).scoreMatrix.length0
      = querySet.length ∧
    (computeD2DistanceMatrix countKmers querySet targetSet score).scoreMatrix.length1
      = targetSet.length := by
    unfold computeD2DistanceMatrix
    exact scoreLoops_lengths _ _ _ _ _
  refine ⟨h.1, h.2, ?_, ?_⟩
  · simp [Matrix.rows, h.1]
  · intro r hr
    simp only [Matrix.rows, List.mem_map] at hr
    obtain ⟨i, _, rfl⟩ := hr
    simp [h.2]

/-- The cells of a run over as many queries as targets: below the common size,
both `(i, j)` and `(j, i)` hold the score of query `i` against target `j`
whenever `i ≤ j`. -/
theorem computeD2DistanceMatrix_square {σ : Type} (countKmers : σ → Nat → List Nat)
    (querySet targetSet : List σ) (score : AFScore) (vectorLength : Nat)
    (hsize : querySet.length = targetSet.length)
    (hq : ∀ s ∈ querySet, (countKmers s score.kmerSize).length = vectorLength)
    (ht : ∀ s ∈ targetSet, (countKmers s score.kmerSize).length = vectorLength)
    (i j : Nat) (hi : i < querySet.length) (hj : j < targetSet.length) (hij : i ≤ j) :
    d2CompareCounts (countKmers querySet[i] score.kmerSize)
        (countKmers targetSet[j] score.kmerSize)
      = Except.ok ((computeD2DistanceMatrix countKmers querySet targetSet score).scoreMatrix.value
          i j) ∧
    d2CompareCounts (countKmers querySet[i] score.kmerSize)
        (countKmers targetSet[j] score.kmerSize)
      = Except.ok ((computeD2DistanceMatrix countKmers querySet targetSet score).scoreMatrix.value
          j i) := by
  have h := (computeD2DistanceMatrix_scored countKmers querySet targetSet score vectorLength
    (Nat.le_of_eq hsize.symm) hq ht).2
  have hd := d2CompareCounts_countKmerSet countKmers querySet targetSet score.kmerSize
    vectorLength hq ht i j hi hj
  rw [countKmerSet_getD countKmers querySet score.kmerSize i hi,
    countKmerSet_getD countKmers targetSet score.kmerSize j hj] at hd
  have hmin1 : min i j = i := by omega
  have hmax1 : max i j = j := by omega
  have hmin2 : min j i = i := by omega
  have hmax2 : max j i = j := by omega
  constructor
  · rw [hd, Matrix.value, h i j, hmin1, hmax1, if_pos hj,
      countKmerSet_getD countKmers querySet score.kmerSize i hi,
      countKmerSet_getD countKmers targetSet score.kmerSize j hj]
  · rw [hd, Matrix.value, h j i, hmin2, hmax2, if_pos hj,
      countKmerSet_getD countKmers querySet score.kmerSize i hi,
      countKmerSet_getD countKmers targetSet score.kmerSize j hj]

/-- C3: when the query collection and the target collection are the same
collection (count vectors of one length), the run has no fault, the matrix is
symmetric, and every diagonal cell holds the self-score of its sequence. -/
theorem computeD2DistanceMatrix_identical_symmetric {σ : Type}
    (countKmers : σ → Nat → List Nat) (seqSet : List σ) (score : AFScore) (vectorLength : Nat)
    (hlen : ∀ s ∈ seqSet, (countKmers s score.kmerSize).length = vectorLength) :
    (computeD2DistanceMatrix countKmers seqSet seqSet score).fault = none ∧
    (∀ i j, i < seqSet.length → j < seqSet.length →
      (computeD2DistanceMatrix countKmers seqSet seqSet score).scoreMatrix.value i j
        = (computeD2DistanceMatrix countKmers seqSet seqSet score).scoreMatrix.value j i) ∧
    (∀ (i : Nat) (hi : i < seqSet.length),
      d2CompareCounts (countKmers seqSet[i] score.kmerSize) (countKmers seqSet[i] score.kmerSize)
        = Except.ok
          ((computeD2DistanceMatrix countKmers seqSet seqSet score).scoreMatrix.value i i)) := by
  have h := computeD2DistanceMatrix_scored countKmers seqSet seqSet score vectorLength
    (Nat.le_refl _) hlen hlen
  refine ⟨h.1, ?_, ?_⟩
  · intro i j _ _
    rw [Matrix.value, Matrix.value, h.2 i j, h.2 j i, Nat.min_comm j i, Nat.max_comm j i]
  · intro i hi
    exact (computeD2DistanceMatrix_square countKmers seqSet seqSet score vectorLength rfl
      hlen hlen i i hi hi (Nat.le_refl i)).1

theorem computeD2DistanceMatrix_identical_symmetric_witness :
    (∀ s ∈ [[Dna5.A, Dna5.C, Dna5.G], [Dna5.C, Dna5.G, Dna5.N], [Dna5.G, Dna5.G, Dna5.G]],
      (countKmersDna5 s (AFScore.mk 2 false).kmerSize).length = 16) ∧
    (computeD2DistanceMatrix countKmersDna5
      [[Dna5.A, Dna5.C, Dna5.G], [Dna5.C, Dna5.G, Dna5.N], [Dna5.G, Dna5.G, Dna5.G]]
      [[Dna5.A, Dna5.C, Dna5.G], [Dna5.C, Dna5.G, Dna5.N], [Dna5.G, Dna5.G, Dna5.G]]
      (AFScore.mk 2 false)).fault = none :=
  ⟨by decide,
   (computeD2DistanceMatrix_identical_symmetric countKmersDna5
      [[Dna5.A, Dna5.C, Dna5.G], [Dna5.C, Dna5.G, Dna5.N], [Dna5.G, Dna5.G, Dna5.G]]
      (AFScore.mk 2 false) 16 (by decide)).1⟩

/-- C7 fails as stated: with one query and an empty target collection the run
does not fail with `EmptyCollection`; it has no fault and leaves a matrix of
one row and no column. -/
theorem computeD2DistanceMatrix_empty_target_no_failure :
    (computeD2DistanceMatrix countKmersDna5 [[Dna5.A, Dna5.C]] [] ⟨1, false⟩).fault
      ≠ some Failure.EmptyCollection ∧
    (computeD2DistanceMatrix countKmersDna5 [[Dna5.A, Dna5.C]] [] ⟨1, false⟩).fault = none ∧
    (computeD2DistanceMatrix countKmersDna5 [[Dna5.A, Dna5.C]] [] ⟨1, false⟩).scoreMatrix.rows
      = [[]] := by
  decide

/-- C7, amended: `computeD2DistanceMatrix` has no emptiness check. When the
query collection or the target collection is empty, the run has no fault,
assigns no cell, and leaves the `|query|` by `|target|` matrix with every
cell `0`. -/
theorem computeD2DistanceMatrix_empty_collection {σ : Type} (countKmers : σ → Nat → List Nat)
    (querySet targetSet : List σ) (score : AFScore)
    (hempty : querySet = [] ∨ targetSet = []) :
    (computeD2DistanceMatrix countKmers querySet targetSet score).fault = none ∧
    (computeD2DistanceMatrix countKmers querySet targetSet score).assigned = [] ∧
    (computeD2DistanceMatrix countKmers querySet targetSet score).scoreMatrix.length0
      = querySet.length ∧
    (computeD2DistanceMatrix countKmers querySet targetSet score).scoreMatrix.length1
      = targetSet.length ∧
    ∀ a b, (computeD2DistanceMatrix countKmers querySet targetSet score).scoreMatrix.host a b
      = 0 := by
  have hl : (computeD2DistanceMatrix countKmers querySet targetSet score).scoreMatrix.length0
      = querySet.length ∧
    (computeD2DistanceMatrix countKmers querySet targetSet score).scoreMatrix.length1
      = targetSet.length := by
    unfold computeD2DistanceMatrix
    exact scoreLoops_lengths _ _ _ _ _
  have ha : (computeD2DistanceMatrix countKmers querySet targetSet score).assigned = [] := by
    apply List.eq_nil_iff_forall_not_mem.mpr
    intro p hp
    rw [computeD2DistanceMatrix_assigned_iff] at hp
    rcases hempty with h | h <;> simp [h] at hp
  rcases hempty with h | h
  · subst h
    refine ⟨?_, ha, hl.1, hl.2, ?_⟩
    · simp [computeD2DistanceMatrix, forLoop]
    · intro a b
      simp [computeD2DistanceMatrix, forLoop]
  · subst h
    have hs := computeD2DistanceMatrix_scored_of countKmers querySet [] score (fun _ _ => 0)
      (Nat.zero_le _) (fun row col _ hcol => by simp at hcol)
    refine ⟨hs.1, ha, hl.1, hl.2, ?_⟩
    intro a b
    rw [hs.2 a b, if_neg]
    simp

theorem computeD2DistanceMatrix_empty_collection_witness :
    (([[Dna5.A, Dna5.C], [Dna5.G]] : List (List Dna5)) = [] ∨ ([] : List (List Dna5)) = []) ∧
    (computeD2DistanceMatrix countKmersDna5 [[Dna5.A, Dna5.C], [Dna5.G]] []
      (AFScore.mk 1 false)).assigned = [] :=
  ⟨Or.inr rfl,
   (computeD2DistanceMatrix_empty_collection countKmersDna5 [[Dna5.A, Dna5.C], [Dna5.G]] []
      (AFScore.mk 1 false) (Or.inr rfl)).2.1⟩

/-- C9: the mirrored write is made without any check that the two collections
are the same. For collections of one size (count vectors of one length) and
all `i ≤ j` below that size, both cells `(i, j)` and `(j, i)` hold the score of
query `i` against target `j`, and the run has no fault. For some collections
of one size that differ (here `A`, `C` against `A`, `A` with `k = 1`), the cell
`(j, i)` below the diagonal differs from the score of query `j` against
target `i`. -/
theorem computeD2DistanceMatrix_shortcut_unchecked {σ : Type} (countKmers : σ → Nat → List Nat)
    (querySet targetSet : List σ) (score : AFScore) (vectorLength : Nat)
    (hsize : querySet.length = targetSet.length)
    (hq : ∀ s ∈ querySet, (countKmers s score.kmerSize).length = vectorLength)
    (ht : ∀ s ∈ targetSet, (countKmers s score.kmerSize).length = vectorLength) :
    ((computeD2DistanceMatrix countKmers querySet targetSet score).fault = none ∧
      ∀ (i j : Nat) (hi : i < querySet.length) (hj : j < targetSet.length), i ≤ j →
        d2CompareCounts (countKmers querySet[i] score.kmerSize)
            (countKmers targetSet[j] score.kmerSize)
          = Except.ok
            ((computeD2DistanceMatrix countKmers querySet targetSet score).scoreMatrix.value i j) ∧
        d2CompareCounts (countKmers querySet[i] score.kmerSize)
            (countKmers targetSet[j] score.kmerSize)
          = Except.ok
            ((computeD2DistanceMatrix countKmers querySet targetSet score).scoreMatrix.value j i)) ∧
    (∃ (qs ts : List (List Dna5)) (sc : AFScore) (i j trueScore : Nat),
      qs.length = ts.length ∧ qs ≠ ts ∧ i ≤ j ∧ j < qs.length ∧
      (computeD2DistanceMatrix countKmersDna5 qs ts sc).fault = none ∧
      d2CompareCounts (countKmersDna5 (qs.getD j []) sc.kmerSize)
        (countKmersDna5 (ts.getD i []) sc.kmerSize) = Except.ok trueScore ∧
      (computeD2DistanceMatrix countKmersDna5 qs ts sc).scoreMatrix.value j i ≠ trueScore) := by
  refine ⟨⟨(computeD2DistanceMatrix_scored countKmers querySet targetSet score vectorLength
      (Nat.le_of_eq hsize.symm) hq ht).1, ?_⟩, ?_⟩
  · intro i j hi hj hij
    exact computeD2DistanceMatrix_square countKmers querySet targetSet score vectorLength
      hsize hq ht i j hi hj hij
  · refine ⟨[[Dna5.A], [Dna5.C]], [[Dna5.A], [Dna5.A]], AFScore.mk 1 false, 0, 1, 0, ?_⟩
    decide

theorem computeD2DistanceMatrix_shortcut_unchecked_witness :
    ([[Dna5.A, Dna5.C], [Dna5.G, Dna5.T]] : List (List Dna5)).length
      = ([[Dna5.C, Dna5.C], [Dna5.A, Dna5.C]] : List (List Dna5)).length ∧
    (computeD2DistanceMatrix countKmersDna5 [[Dna5.A, Dna5.C], [Dna5.G, Dna5.T]]
      [[Dna5.C, Dna5.C], [Dna5.A, Dna5.C]] (AFScore.mk 1 false)).fault = none :=
  ⟨by decide,
   (computeD2DistanceMatrix_shortcut_unchecked countKmersDna5
      [[Dna5.A, Dna5.C], [Dna5.G, Dna5.T]] [[Dna5.C, Dna5.C], [Dna5.A, Dna5.C]]
      (AFScore.mk 1 false) 4 (by decide) (by decide) (by decide)).1.1⟩

/-- C10: every index pair that `computeD2DistanceMatrix` assigns, the direct
`(rowIndex, colIndex)` and the mirrored `(colIndex, rowIndex)`, lies inside the
`|query|` by `|target|` lengths if and only if `|target| ≤ |query|` or
`|query| = 0`; when `|target| > |query| ≥ 1` some iteration
`rowIndex ≤ colIndex` of the loops assigns the mirrored cell
`(colIndex, rowIndex)` with `colIndex ≥ |query|`. -/
theorem computeD2DistanceMatrix_assigned_inside_iff {σ : Type} (countKmers : σ → Nat → List Nat)
    (querySet targetSet : List σ) (score : AFScore) :
    ((∀ p ∈ (computeD2DistanceMatrix countKmers querySet targetSet score).assigned,
        p.1 < querySet.length ∧ p.2 < targetSet.length) ↔
      (targetSet.length ≤ querySet.length ∨ querySet.length = 0)) ∧
    (querySet.length < targetSet.length → 1 ≤ querySet.length →
      ∃ rowIndex colIndex, rowIndex < querySet.length ∧ rowIndex ≤ colIndex ∧
        colIndex < targetSet.length ∧ querySet.length ≤ colIndex ∧
        (colIndex, rowIndex) ∈
          (computeD2DistanceMatrix countKmers querySet targetSet score).assigned) := by
  have key : querySet.length < targetSet.length → 1 ≤ querySet.length →
      (targetSet.length - 1, 0) ∈
        (computeD2DistanceMatrix countKmers querySet targetSet score).assigned := by
    intro h1 h2
    rw [computeD2DistanceMatrix_assigned_iff]
    simp only
    omega
  refine ⟨⟨?_, ?_⟩, ?_⟩
  · intro hall
    by_contra hne
    have h := hall _ (key (by omega) (by omega))
    simp only at h
    omega
  · intro hcase p hp
    rw [computeD2DistanceMatrix_assigned_iff] at hp
    omega
  · intro h1 h2
    exact ⟨0, targetSet.length - 1, by omega, by omega, by omega, by omega, key h1 h2⟩

theorem computeD2DistanceMatrix_assigned_inside_iff_witness :
    ([[Dna5.A]] : List (List Dna5)).length < ([[Dna5.A], [Dna5.C]] : List (List Dna5)).length ∧
    1 ≤ ([[Dna5.A]] : List (List Dna5)).length ∧
    ∃ rowIndex colIndex, rowIndex < ([[Dna5.A]] : List (List Dna5)).length ∧
      rowIndex ≤ colIndex ∧
      colIndex < ([[Dna5.A], [Dna5.C]] : List (List Dna5)).length ∧
      ([[Dna5.A]] : List (List Dna5)).length ≤ colIndex ∧
      (colIndex, rowIndex) ∈
        (computeD2DistanceMatrix countKmersDna5 [[Dna5.A]] [[Dna5.A], [Dna5.C]]
          (AFScore.mk 1 false)).assigned :=
  ⟨by decide, by decide,
   (computeD2DistanceMatrix_assigned_inside_iff countKmersDna5 [[Dna5.A]] [[Dna5.A], [Dna5.C]]
      (AFScore.mk 1 false)).2 (by decide) (by decide)⟩

/-! ## The k-mer counts of the specification -/

theorem incrementSlot_length (v : List Nat) : ∀ i : Nat, (incrementSlot v i).length = v.length := by
  induction v with
  | nil => intro i; rfl
  | cons c v ih =>
    intro i
    cases i with
    | zero => rfl
    | succ i => simp [incrementSlot, ih i]

theorem incrementSlot_sum (v : List Nat) : ∀ i : Nat, i < v.length →
    (incrementSlot v i).sum = v.sum + 1 := by
  induction v with
  | nil => intro i h; simp at h
  | cons c v ih =>
    intro i h
    cases i with
    | zero => simp [incrementSlot]; omega
    | succ i =>
      have h1 : i < v.length := by simpa using h
      simp [incrementSlot, ih i h1]
      omega

theorem windowIndex_skip_lt (w : List Dna5) (hw : ∀ c ∈ w, c ≠ Dna5.N) :
    ∃ i, windowIndex AmbiguityPolicy.skipWindow w = some i ∧ i < 4 ^ w.length := by
  induction w with
  | nil => exact ⟨0, rfl, by simp⟩
  | cons c w ih =>
    obtain ⟨i, hi, hlt⟩ := ih (fun d hd => hw d (List.mem_cons_of_mem c hd))
    have hc : c ≠ Dna5.N := hw c (List.mem_cons_self c w)
    have hr : ∃ r, symbolRank AmbiguityPolicy.skipWindow c = some r ∧ r < 4 := by
      cases c with
      | A => exact ⟨0, rfl, by omega⟩
      | C => exact ⟨1, rfl, by omega⟩
      | G => exact ⟨2, rfl, by omega⟩
      | T => exact ⟨3, rfl, by omega⟩
      | N => exact absurd rfl hc
    obtain ⟨r, hr, hr4⟩ := hr
    refine ⟨r + 4 * i, ?_, ?_⟩
    · simp [windowIndex, hr, hi, alphabetSize]
    · have e : 4 ^ (c :: w).length = 4 * 4 ^ w.length := by
        rw [List.length_cons, Nat.pow_succ, Nat.mul_comm]
      rw [e]
      omega

theorem countWindows_length (policy : AmbiguityPolicy) (sequence : List Dna5) (k : Nat) :
    (countWindows policy sequence k).length = alphabetSize policy ^ k := by
  unfold countWindows
  refine forLoop_preserves (fun v : List Nat => v.length = alphabetSize policy ^ k) _ _ _ _
    (by simp) ?_
  intro start v _ _ hv
  cases h : windowIndex policy ((sequence.drop start).take k) with
  | none => simpa [h] using hv
  | some i => simpa [h, incrementSlot_length] using hv

theorem countWindows_sum (sequence : List Dna5) (k : Nat)
    (hseq : ∀ c ∈ sequence, c ≠ Dna5.N) :
    (countWindows AmbiguityPolicy.skipWindow sequence k).sum = sequence.length + 1 - k := by
  unfold countWindows
  have h := forLoop_invariant
    (fun start (v : List Nat) => v.length = 4 ^ k ∧ v.sum = start)
    (fun start v =>
      match windowIndex AmbiguityPolicy.skipWindow ((sequence.drop start).take k) with
      | some i => incrementSlot v i
      | none => v)
    0 (sequence.length + 1 - k) (List.replicate (alphabetSize AmbiguityPolicy.skipWindow ^ k) 0)
    (Nat.zero_le _) (by simp [alphabetSize]) ?_
  · exact h.2
  · intro start v _ hhi hv
    have hwlen : ((sequence.drop start).take k).length = k := by
      rw [List.length_take, List.length_drop]
      omega
    have hwsym : ∀ c ∈ (sequence.drop start).take k, c ≠ Dna5.N :=
      fun c hc => hseq c (List.mem_of_mem_drop (List.mem_of_mem_take hc))
    obtain ⟨i, hi, hlt⟩ := windowIndex_skip_lt _ hwsym
    rw [hwlen] at hlt
    simp only [hi]
    refine ⟨by rw [incrementSlot_length]; exact hv.1, ?_⟩
    rw [incrementSlot_sum v i (by rw [hv.1]; exact hlt), hv.2]

/-- C8: under the skip policy, with `k ≥ 1` and `4 ^ k` within the configured
maximum, `countKmers` returns a vector of length `4 ^ k`, which is the vector
that the counting loops of `computeD2DistanceMatrix` store for the sequence;
for a sequence of length `n ≥ k` without ambiguity symbols its entries sum to
`n - k + 1`, and for a sequence shorter than `k` it is all zeros. -/
theorem countKmers_total_is_window_count (maxVectorLength : Nat) (sequence : List Dna5)
    (k : Nat) (hk : 1 ≤ k) (hmax : 4 ^ k ≤ maxVectorLength) :
    ∃ v, countKmers maxVectorLength sequence k AmbiguityPolicy.skipWindow = Except.ok v ∧
      countKmerSet countKmersDna5 [sequence] k = [v] ∧
      v.length = 4 ^ k ∧
      ((∀ c ∈ sequence, c ≠ Dna5.N) → k ≤ sequence.length →
        v.sum = sequence.length - k + 1) ∧
      (sequence.length < k → v = List.replicate (4 ^ k) 0) := by
  refine ⟨countWindows AmbiguityPolicy.skipWindow sequence k, ?_, ?_, ?_, ?_, ?_⟩
  · have h1 : ¬ k < 1 := by omega
    have h2 : ¬ maxVectorLength < alphabetSize AmbiguityPolicy.skipWindow ^ k := by
      simp only [alphabetSize]
      omega
    simp [countKmers, h1, h2]
  · simp [countKmerSet, countKmersDna5]
  · simpa [alphabetSize] using countWindows_length AmbiguityPolicy.skipWindow sequence k
  · intro hseq hn
    rw [countWindows_sum sequence k hseq]
    omega
  · intro hn
    unfold countWindows
    rw [forLoop_of_ge _ _ _ _ (by omega)]
    simp [alphabetSize]

theorem countKmers_total_is_window_count_witness :
    1 ≤ 2 ∧ 4 ^ 2 ≤ 1024 ∧
    (∀ c ∈ [Dna5.A, Dna5.C, Dna5.G, Dna5.T, Dna5.A], c ≠ Dna5.N) ∧
    2 ≤ [Dna5.A, Dna5.C, Dna5.G, Dna5.T, Dna5.A].length ∧
    ∃ v, countKmers 1024 [Dna5.A, Dna5.C, Dna5.G, Dna5.T, Dna5.A] 2 AmbiguityPolicy.skipWindow
        = Except.ok v ∧
      v.length = 16 ∧ v.sum = 4 :=
  ⟨by decide, by decide, by decide, by decide,
   match countKmers_total_is_window_count 1024 [Dna5.A, Dna5.C, Dna5.G, Dna5.T, Dna5.A] 2
     (by decide) (by decide) with
   | ⟨v, h1, _, h3, h4, _⟩ => ⟨v, h1, h3, h4 (by decide) (by decide)⟩⟩

end BetterBlast
